import Mathlib

/-!
Verification development for the `AlexsanderHamir/ringbuffer` Go repository.

The repository contains two generations of the ring buffer:

* the current package `pkg/ringbuffer` (operations in `pkg/ringbuffer/config.go`,
  error helpers `setErr`/`readErr`/`waitRead`/`waitWrite` in `unnamed/part_008`,
  constructor/`Length`/`Close`/`ClearBuffer` in the source document embedded in
  `tests/getmany_test.go`), modelled below in namespace `Pkg`;
* an older generation of the root package (`unnamed/part_009` .. `unnamed/part_012`:
  `Write`/`GetOne`/`TryWrite`/`TryRead`/`Flush`/`Reset`/`Close`/`Pause`/`Resume`,
  `handleBufferFull`/`handleBufferEmpty`/`updateBufferState`, `Length`), modelled
  below in namespace `Root`.

Modelling conventions:

* The mutex-guarded Go struct becomes an explicit state record `RB`; each
  operation is a pure function returning its Go result tuple together with the
  post state.
* Go `int` indices are `Nat` (all position arithmetic in the source keeps them
  in `[0, size)`); length arguments that the source compares against `0`
  (`n <= 0`) are `Int` so that negative arguments are representable.
* Condition-variable waits have no co-operating thread in this sequential
  embedding; an operation that reaches a wait is reported as `Exec.blocked`
  with the state unchanged (in the source the state is likewise unchanged at
  the moment of suspension).  Loops whose iteration count is not structurally
  bounded take explicit fuel and report exhaustion as `Exec.outOfFuel`.
* Hook slots are `nil` on every freshly constructed buffer, and no hook
  registration operation appears in the claims, so every `if hook != nil`
  branch of the source is the `nil` branch here.
* A method called through a nil handle is modelled by wrappers over
  `Option (RB T)`; a field dereference through the nil handle (including
  `r.mu.Lock()`) is the outcome `Exec.nilPanic`.
* `sync.Cond.Signal`/`Broadcast` and verbose logging do not change buffer
  state and are omitted.
-/

namespace RingBufferSpec

/-- The error values that operations of either package can return:
the `errors` package constants, `context.DeadlineExceeded`, `io.EOF`
(the terminal error installed by `Close` via `setErr`), the root package's
`ErrTooMuchDataToWrite`, and `ErrNilBuffer`. -/
inductive RBErr where
  | isFull
  | isEmpty
  | invalidLength
  | tooMuchDataToPeek
  | tooMuchDataToWrite
  | nilBuffer
  | eofErr
  | deadlineExceeded
  deriving DecidableEq, Repr

/-- The `RingBuffer[T]` struct: backing slice, capacity, read/write positions,
the `full` disambiguation flag, the sticky error slot, and the mode flags.
`overwrite` and `paused` exist only in the older root-package struct
(`unnamed/part_011`); the `pkg/ringbuffer` operations never read them. -/
structure RB (T : Type) where
  buf : List T
  size : Nat
  r : Nat
  w : Nat
  isFull : Bool
  err : Option RBErr := none
  block : Bool := false
  overwrite : Bool := false
  paused : Bool := false
  deriving DecidableEq, Repr

/-- Outcome of running one operation body: a normal Go return value,
suspension on a condition variable (no co-operating thread in this
sequential model), exhaustion of the explicit loop fuel, or a nil-handle
dereference (runtime panic). -/
inductive Exec (α : Type) where
  | ret (a : α)
  | blocked
  | outOfFuel
  | nilPanic
  deriving DecidableEq, Repr

/-- Circular store of a run of items starting at slot `i`, advancing modulo `c`:
the meaning of the one-or-two `copy` calls in `WriteMany` for a run that fits
into the free space (`len items ≤ c`). -/
def wrapWrite {T : Type} (c : Nat) : List T → Nat → List T → List T
  | buf, _, [] => buf
  | buf, i, x :: xs => wrapWrite c (buf.set i x) ((i + 1) % c) xs

/-- Circular read of `n` slots starting at slot `i`, advancing modulo `c`:
the meaning of the one-or-two `copy` calls in `GetN`/`PeekN` for `n` not
exceeding the stored count. -/
def readSlots {T : Type} [Inhabited T] (c : Nat) (buf : List T) (i n : Nat) : List T :=
  (List.range n).map (fun k => buf.getD ((i + k) % c) default)

namespace Pkg

variable {T : Type}

/-- `readErr` (`unnamed/part_008`): the sticky error, except that `io.EOF`
is only reported while the buffer is empty. -/
def readErr (s : RB T) : Option RBErr :=
  match s.err with
  | none => none
  | some e =>
    if e = RBErr.eofErr then
      if s.w = s.r ∧ s.isFull = false then some RBErr.eofErr else none
    else some e

/-- `Length` (source document inside `tests/getmany_test.go`): number of
readable items; a closed (`io.EOF`) buffer reports zero. -/
def Length (s : RB T) : Nat :=
  if s.err = some RBErr.eofErr then 0
  else if s.isFull then s.size
  else if s.w ≥ s.r then s.w - s.r
  else s.size - s.r + s.w

/-- `availableSpace` (`pkg/ringbuffer/config.go`): free slots. -/
def availableSpace (s : RB T) : Nat :=
  if s.isFull then 0
  else if s.w ≥ s.r then s.size - s.w + s.r
  else s.r - s.w

/-- `New` (source document inside `tests/getmany_test.go`): `nil` for a
non-positive size, otherwise a zeroed buffer of the given capacity. -/
def New (T : Type) [Inhabited T] (size : Nat) : Option (RB T) :=
  if size = 0 then none
  else some { buf := List.replicate size default, size := size, r := 0, w := 0, isFull := false }

/-- `Write` (`pkg/ringbuffer/config.go` lines 105-150), body behind the nil
check: sticky-error check, then the fullness loop (the pre-write hook is
`nil`; a non-blocking full buffer errors, a blocking one suspends), then the
store at `w` and the advance of `w` modulo the size, setting `full` when the
positions coincide. -/
def Write (s : RB T) (item : T) : Exec (Option RBErr) × RB T :=
  match readErr s with
  | some e => (.ret (some e), s)
  | none =>
    if s.isFull then
      if s.block then (.blocked, s) else (.ret (some RBErr.isFull), s)
    else
      let w' := (s.w + 1) % s.size
      (.ret none,
        { s with buf := s.buf.set s.w item, w := w', isFull := decide (w' = s.r) })

/-- `GetOne` (`pkg/ringbuffer/config.go` lines 226-277), body behind the nil
check: sticky-error check, the emptiness loop (pre-read hook `nil`), then the
copy of slot `r`, the advance of `r`, clearing `full`, and the second
`readErr` call whose result is returned alongside the item. -/
def GetOne [Inhabited T] (s : RB T) : Exec (T × Option RBErr) × RB T :=
  match readErr s with
  | some e => (.ret (default, some e), s)
  | none =>
    if s.w = s.r ∧ s.isFull = false then
      if s.block then (.blocked, s) else (.ret (default, some RBErr.isEmpty), s)
    else
      let item := s.buf.getD s.r default
      let s' : RB T := { s with r := (s.r + 1) % s.size, isFull := false }
      (.ret (item, readErr s'), s')

/-- `WriteMany` (`pkg/ringbuffer/config.go` lines 159-218): empty input is a
no-op; with insufficient free space a non-blocking buffer returns `ErrIsFull`
and a blocking one suspends; otherwise all items are stored (the two `copy`
calls are the circular `wrapWrite`), `w` advances by the item count and
`full` is recomputed as `w == r`. -/
def WriteMany (s : RB T) (items : List T) : Exec (Nat × Option RBErr) × RB T :=
  if items.length = 0 then (.ret (0, none), s)
  else
    match readErr s with
    | some e => (.ret (0, some e), s)
    | none =>
      if items.length > availableSpace s then
        if s.block then (.blocked, s) else (.ret (0, some RBErr.isFull), s)
      else
        let w' := (s.w + items.length) % s.size
        (.ret (items.length, none),
          { s with buf := wrapWrite s.size s.buf s.w items, w := w',
                   isFull := decide (w' = s.r) })

/-- `GetN` (`pkg/ringbuffer/config.go` lines 285-343), body behind the nil
check: `ErrInvalidLength` for `n ≤ 0`; with fewer than `n` readable items a
non-blocking buffer returns `ErrIsEmpty` and a blocking one suspends;
otherwise `n` items are copied circularly from `r`, `r` advances by `n` and
`full` is cleared, with a final `readErr` alongside the items. -/
def GetN [Inhabited T] (s : RB T) (n : Int) : Exec (List T × Option RBErr) × RB T :=
  if n ≤ 0 then (.ret ([], some RBErr.invalidLength), s)
  else
    match readErr s with
    | some e => (.ret ([], some e), s)
    | none =>
      if (n.toNat) > Length s then
        if s.block then (.blocked, s) else (.ret ([], some RBErr.isEmpty), s)
      else
        let items := readSlots s.size s.buf s.r n.toNat
        let s' : RB T := { s with r := (s.r + n.toNat) % s.size, isFull := false }
        (.ret (items, readErr s'), s')

/-- `PeekOne` (`pkg/ringbuffer/config.go` lines 346-363), body behind the nil
check: the sticky-error check, `ErrIsEmpty` on an empty buffer, otherwise the
value of slot `r`; no state change on any path. -/
def PeekOne [Inhabited T] (s : RB T) : Exec (T × Option RBErr) × RB T :=
  match readErr s with
  | some e => (.ret (default, some e), s)
  | none =>
    if s.w = s.r ∧ s.isFull = false then (.ret (default, some RBErr.isEmpty), s)
    else (.ret (s.buf.getD s.r default, none), s)

/-- `PeekN` (`pkg/ringbuffer/config.go` lines 367-407), body behind the nil
check (note the source checks `n <= 0` before the nil check): `ErrIsEmpty` on
an empty buffer, `ErrTooMuchDataToPeek` for `n` above the readable count,
otherwise `n` items copied circularly from `r`; no state change. -/
def PeekN [Inhabited T] (s : RB T) (n : Int) : Exec (List T × Option RBErr) × RB T :=
  if n ≤ 0 then (.ret ([], some RBErr.invalidLength), s)
  else
    match readErr s with
    | some e => (.ret ([], some e), s)
    | none =>
      if s.w = s.r ∧ s.isFull = false then (.ret ([], some RBErr.isEmpty), s)
      else if (n.toNat) > Length s then (.ret ([], some RBErr.tooMuchDataToPeek), s)
      else (.ret (readSlots s.size s.buf s.r n.toNat, none), s)

/-- `PeekNView` (`pkg/ringbuffer/config.go` lines 416-446): like `PeekN` but
returning the one or two aliasing sub-slices (`buf[r:r+n]`, or `buf[r:size]`
plus `buf[0:n-len(part1)]` when the requested run crosses the physical end);
no state change. -/
def PeekNView (s : RB T) (n : Int) : Exec (List T × List T × Option RBErr) × RB T :=
  if n ≤ 0 then (.ret ([], [], some RBErr.invalidLength), s)
  else
    match readErr s with
    | some e => (.ret ([], [], some e), s)
    | none =>
      if s.w = s.r ∧ s.isFull = false then (.ret ([], [], some RBErr.isEmpty), s)
      else if (n.toNat) > Length s then (.ret ([], [], some RBErr.tooMuchDataToPeek), s)
      else if s.w > s.r ∨ n.toNat ≤ s.size - s.r then
        (.ret ((s.buf.drop s.r).take n.toNat, [], none), s)
      else
        (.ret (s.buf.drop s.r, s.buf.take (n.toNat - (s.size - s.r)), none), s)

/-- `GetAllView` (`pkg/ringbuffer/config.go` lines 455-483): the whole stored
run as one or two aliasing sub-slices (`buf[r:w]`, or `buf[r:size]` plus
`buf[0:w]`); afterwards `r` is set to `w` and `full` is cleared. -/
def GetAllView (s : RB T) : Exec (List T × List T × Option RBErr) × RB T :=
  match readErr s with
  | some e => (.ret ([], [], some e), s)
  | none =>
    if s.w = s.r ∧ s.isFull = false then (.ret ([], [], some RBErr.isEmpty), s)
    else
      let parts : List T × List T :=
        if s.w > s.r then ((s.buf.drop s.r).take (s.w - s.r), [])
        else (s.buf.drop s.r, s.buf.take s.w)
      let s' : RB T := { s with r := s.w, isFull := false }
      (.ret (parts.1, parts.2, readErr s'), s')

/-- `GetNView` (`pkg/ringbuffer/config.go` lines 495-548): `ErrInvalidLength`
for `n ≤ 0` or `n` above the capacity; with fewer than `n` readable items a
non-blocking buffer returns `ErrIsEmpty` and a blocking one suspends;
otherwise the requested run as one or two aliasing sub-slices, after which
`r` advances by `n` and `full` is cleared, with a final `readErr`. -/
def GetNView (s : RB T) (n : Int) : Exec (List T × List T × Option RBErr) × RB T :=
  if n ≤ 0 then (.ret ([], [], some RBErr.invalidLength), s)
  else if n > (s.size : Int) then (.ret ([], [], some RBErr.invalidLength), s)
  else
    match readErr s with
    | some e => (.ret ([], [], some e), s)
    | none =>
      if Length s < n.toNat ∨ (s.w = s.r ∧ s.isFull = false) then
        if s.block then (.blocked, s) else (.ret ([], [], some RBErr.isEmpty), s)
      else
        let parts : List T × List T :=
          if s.w > s.r ∨ n.toNat ≤ s.size - s.r then ((s.buf.drop s.r).take n.toNat, [])
          else (s.buf.drop s.r, s.buf.take (n.toNat - (s.size - s.r)))
        let s' : RB T := { s with r := (s.r + n.toNat) % s.size, isFull := false }
        (.ret (parts.1, parts.2, readErr s'), s')

/-- Zeroing of the slots `[i, j)`, as in the loops of `ClearBuffer`. -/
def clearRange [Inhabited T] (buf : List T) (i j : Nat) : List T :=
  (List.range' i (j - i)).foldl (fun b k => b.set k default) buf

/-- `ClearBuffer` (source document inside `tests/getmany_test.go`): zero the
stored region (one or two runs depending on wraparound) and reset the
positions and the `full` flag. -/
def ClearBuffer [Inhabited T] (s : RB T) : RB T :=
  let buf' :=
    if s.w > s.r then clearRange s.buf s.r s.w
    else clearRange (clearRange s.buf s.r s.size) 0 s.w
  { s with buf := buf', r := 0, w := 0, isFull := false }

/-- `Close` (source document inside `tests/getmany_test.go`): a no-op when
the terminal `io.EOF` error is already set; otherwise `setErr(io.EOF, true)`
(`unnamed/part_008`) stores `io.EOF` when no other sticky error is present,
the contents are cleared, all waiters are woken, and `nil` is returned. -/
def Close [Inhabited T] (s : RB T) : Option RBErr × RB T :=
  if s.err = some RBErr.eofErr then (none, s)
  else
    let s1 : RB T :=
      match s.err with
      | none => { s with err := some RBErr.eofErr }
      | some _ => s
    (none, ClearBuffer s1)

/-- `Write` called through a possibly-nil handle: the source checks
`r == nil` first and returns `ErrNilBuffer`. -/
def WriteH (rb : Option (RB T)) (item : T) : Exec (Option RBErr) × Option (RB T) :=
  match rb with
  | none => (.ret (some RBErr.nilBuffer), none)
  | some s => ((Write s item).1, some (Write s item).2)

/-- `GetOne` called through a possibly-nil handle: nil check first. -/
def GetOneH [Inhabited T] (rb : Option (RB T)) : Exec (T × Option RBErr) × Option (RB T) :=
  match rb with
  | none => (.ret (default, some RBErr.nilBuffer), none)
  | some s => ((GetOne s).1, some (GetOne s).2)

/-- `GetN` called through a possibly-nil handle: nil check first, before the
`n <= 0` check. -/
def GetNH [Inhabited T] (rb : Option (RB T)) (n : Int) :
    Exec (List T × Option RBErr) × Option (RB T) :=
  match rb with
  | none => (.ret ([], some RBErr.nilBuffer), none)
  | some s => ((GetN s n).1, some (GetN s n).2)

/-- `PeekOne` called through a possibly-nil handle: nil check first. -/
def PeekOneH [Inhabited T] (rb : Option (RB T)) : Exec (T × Option RBErr) × Option (RB T) :=
  match rb with
  | none => (.ret (default, some RBErr.nilBuffer), none)
  | some s => ((PeekOne s).1, some (PeekOne s).2)

/-- `PeekN` called through a possibly-nil handle: the source checks `n <= 0`
BEFORE the nil check, so a non-positive `n` reports `ErrInvalidLength` even
on a nil handle. -/
def PeekNH [Inhabited T] (rb : Option (RB T)) (n : Int) :
    Exec (List T × Option RBErr) × Option (RB T) :=
  if n ≤ 0 then (.ret ([], some RBErr.invalidLength), rb)
  else
    match rb with
    | none => (.ret ([], some RBErr.nilBuffer), none)
    | some s => ((PeekN s n).1, some (PeekN s n).2)

/-- `PeekNView` called through a possibly-nil handle: the source checks
`n <= 0` and then, with NO nil check, executes `r.mu.Lock()` — a nil handle
dereference. -/
def PeekNViewH (rb : Option (RB T)) (n : Int) :
    Exec (List T × List T × Option RBErr) × Option (RB T) :=
  if n ≤ 0 then (.ret ([], [], some RBErr.invalidLength), rb)
  else
    match rb with
    | none => (.nilPanic, none)
    | some s => ((PeekNView s n).1, some (PeekNView s n).2)

/-- `GetAllView` called through a possibly-nil handle: the source has NO nil
check and immediately executes `r.mu.Lock()` — a nil handle dereference. -/
def GetAllViewH [Inhabited T] (rb : Option (RB T)) :
    Exec (List T × List T × Option RBErr) × Option (RB T) :=
  match rb with
  | none => (.nilPanic, none)
  | some s => ((GetAllView s).1, some (GetAllView s).2)

/-- `GetNView` called through a possibly-nil handle: the source checks
`n <= 0`, then reads `r.size` with NO nil check — a nil handle dereference
for any positive `n`. -/
def GetNViewH (rb : Option (RB T)) (n : Int) :
    Exec (List T × List T × Option RBErr) × Option (RB T) :=
  if n ≤ 0 then (.ret ([], [], some RBErr.invalidLength), rb)
  else
    match rb with
    | none => (.nilPanic, none)
    | some s => ((GetNView s n).1, some (GetNView s n).2)

/-- `WriteMany` called through a possibly-nil handle: the source checks
`len(items) == 0` first, then locks with NO nil check — a nil handle
dereference for any non-empty input. -/
def WriteManyH (rb : Option (RB T)) (items : List T) :
    Exec (Nat × Option RBErr) × Option (RB T) :=
  if items.length = 0 then (.ret (0, none), rb)
  else
    match rb with
    | none => (.nilPanic, none)
    | some s => ((WriteMany s items).1, some (WriteMany s items).2)

end Pkg

namespace Root

variable {T : Type}

/-- `Length` (`unnamed/part_012` lines 55-70): number of stored items,
computed from `isFull` and the positions. -/
def Length (s : RB T) : Nat :=
  if s.isFull then s.size
  else if s.w ≥ s.r then s.w - s.r
  else s.size - s.r + s.w

/-- `IsEmpty` (`unnamed/part_012`): `!isFull && r == w`. -/
def IsEmpty (s : RB T) : Bool :=
  s.isFull = false ∧ s.r = s.w

/-- `IsFull` (`unnamed/part_012`): the `full` flag. -/
def IsFull (s : RB T) : Bool :=
  s.isFull

/-- `NewRingBuffer` (`unnamed/part_012` lines 8-21): `nil` for a non-positive
size, otherwise a zeroed buffer of the given capacity. -/
def NewRingBuffer (T : Type) [Inhabited T] (size : Nat) : Option (RB T) :=
  if size = 0 then none
  else some { buf := List.replicate size default, size := size, r := 0, w := 0, isFull := false }

/-- `updateBufferState` (`unnamed/part_009` lines 184-188): recompute
`isFull` as `w == r` (the state-change hook is `nil`). -/
def updateBufferState (s : RB T) : RB T :=
  { s with isFull := decide (s.w = s.r) }

/-- `handleBufferFull` (`unnamed/part_009` lines 127-156): a non-blocking
buffer returns `ErrIsFull`; with `overwrite` the read position advances by
one (and `isFull` is set when the positions collide again — it is never
cleared); otherwise the writer suspends (the pre-write hook is `nil`). -/
def handleBufferFull (s : RB T) : Exec (Option RBErr) × RB T :=
  if s.block = false then (.ret (some RBErr.isFull), s)
  else if s.overwrite then
    let r' := (s.r + 1) % s.size
    (.ret none, { s with r := r', isFull := if r' = s.w then true else s.isFull })
  else (.blocked, s)

/-- The `for r.isFull { handleBufferFull }` loop of `Write`
(`unnamed/part_010` lines 21-27) followed by the store, with explicit fuel
for the loop iterations. -/
def writeLoop [Inhabited T] (item : T) : Nat → RB T → Exec (Option RBErr) × RB T
  | 0, s => (.outOfFuel, s)
  | fuel + 1, s =>
    if s.isFull then
      match handleBufferFull s with
      | (.ret none, s') => writeLoop item fuel s'
      | other => other
    else
      let w' := (s.w + 1) % s.size
      (.ret none,
        { s with buf := s.buf.set s.w item, w := w', isFull := decide (w' = s.r) })

/-- `Write` (`unnamed/part_010` lines 10-43): a paused buffer reports success
without storing; otherwise the fullness loop runs and the item is stored at
`w`, advancing `w` modulo the size and recomputing `full` as `w == r`. -/
def Write [Inhabited T] (fuel : Nat) (s : RB T) (item : T) : Exec (Option RBErr) × RB T :=
  if s.paused then (.ret none, s)
  else writeLoop item fuel s

/-- `GetOne` (`unnamed/part_010` lines 69-102): a paused buffer reports
success with the zero value; an empty non-blocking buffer returns
`ErrIsEmpty` via `handleBufferEmpty`, an empty blocking one suspends;
otherwise slot `r` is returned, `r` advances and `full` is cleared. -/
def GetOne [Inhabited T] (s : RB T) : Exec (T × Option RBErr) × RB T :=
  if s.paused then (.ret (default, none), s)
  else if s.isFull = false ∧ s.r = s.w then
    if s.block = false then (.ret (default, some RBErr.isEmpty), s)
    else (.blocked, s)
  else
    (.ret (s.buf.getD s.r default, none),
      { s with r := (s.r + 1) % s.size, isFull := false })

/-- `TryWrite` (`unnamed/part_010` lines 129-155): `false` while paused, or
when full without `overwrite`; with `overwrite` the oldest element is evicted
by advancing `r`, then the item is stored and `full` recomputed. -/
def TryWrite (s : RB T) (item : T) : Bool × RB T :=
  if s.paused then (false, s)
  else if s.isFull ∧ s.overwrite = false then (false, s)
  else
    let s1 := if s.isFull then { s with r := (s.r + 1) % s.size } else s
    let w' := (s1.w + 1) % s1.size
    (true, { s1 with buf := s1.buf.set s1.w item, w := w', isFull := decide (w' = s1.r) })

/-- `TryRead` (`unnamed/part_010` lines 159-183): `(zero, false)` while
paused or empty; otherwise slot `r` with `true`, advancing `r` and clearing
`full`. -/
def TryRead [Inhabited T] (s : RB T) : (T × Bool) × RB T :=
  if s.paused then ((default, false), s)
  else if s.isFull = false ∧ s.r = s.w then ((default, false), s)
  else
    ((s.buf.getD s.r default, true),
      { s with r := (s.r + 1) % s.size, isFull := false })

/-- `WriteMany` (`unnamed/part_010` lines 47-64): empty input is a no-op,
input longer than the capacity returns `ErrTooMuchDataToWrite` with count 0,
otherwise single-item `Write` calls run in sequence and a failing call
returns the count written so far together with its error. -/
def writeManyLoop [Inhabited T] (fuel : Nat) :
    RB T → List T → Nat → Exec (Nat × Option RBErr) × RB T
  | s, [], n => (.ret (n, none), s)
  | s, x :: xs, n =>
    match Write fuel s x with
    | (.ret none, s') => writeManyLoop fuel s' xs (n + 1)
    | (.ret (some e), s') => (.ret (n, some e), s')
    | (.blocked, s') => (.blocked, s')
    | (.outOfFuel, s') => (.outOfFuel, s')
    | (.nilPanic, s') => (.nilPanic, s')

/-- `WriteMany` (`unnamed/part_010` lines 47-64); see `writeManyLoop`. -/
def WriteMany [Inhabited T] (fuel : Nat) (s : RB T) (items : List T) :
    Exec (Nat × Option RBErr) × RB T :=
  if items.length = 0 then (.ret (0, none), s)
  else if items.length > s.size then (.ret (0, some RBErr.tooMuchDataToWrite), s)
  else writeManyLoop fuel s items 0

/-- `Flush` (`unnamed/part_010` lines 234-252): reset the positions and the
`full` flag, then (flush hook is `nil`) `updateBufferState` recomputes
`isFull = (w == r)` — which is `true` for the just-reset positions — and the
condition variables are broadcast (no state change). -/
def Flush (s : RB T) : RB T :=
  updateBufferState { s with r := 0, w := 0, isFull := false }

/-- `Reset` (`unnamed/part_010` lines 255-275): as `Flush`, additionally
clearing the stored error and `paused`. -/
def Reset (s : RB T) : RB T :=
  updateBufferState { s with r := 0, w := 0, isFull := false, err := none, paused := false }

/-- `Close` (`unnamed/part_010` lines 328-344): the close hook is `nil`;
positions and `full` are reset, the stored error is cleared, `paused` is set,
the condition variables are broadcast, and `nil` is returned. -/
def Close (s : RB T) : Option RBErr × RB T :=
  (none, { s with r := 0, w := 0, isFull := false, err := none, paused := true })

/-- `Pause` (`unnamed/part_010` lines 347-359). -/
def Pause (s : RB T) : RB T :=
  { s with paused := true }

/-- `Resume` (`unnamed/part_010` lines 362-374). -/
def Resume (s : RB T) : RB T :=
  { s with paused := false }

end Root

/-! ### Generic helper lemmas -/

theorem getD_set_ne {T : Type} (l : List T) (i j : Nat) (x d : T) (h : i ≠ j) :
    (l.set i x).getD j d = l.getD j d := by
  simp [List.getD_eq_getElem?_getD, List.getElem?_set_ne h]

theorem getD_set_self {T : Type} (l : List T) (i : Nat) (x d : T) (h : i < l.length) :
    (l.set i x).getD i d = x := by
  simp [List.getD_eq_getElem?_getD, List.getElem?_set_eq_of_lt x h]

/-- Two offsets below the modulus that land on the same slot are equal. -/
theorem add_mod_inj {c r i j : Nat} (hi : i < c) (hj : j < c)
    (h : (r + i) % c = (r + j) % c) : i = j := by
  have h1 : r + i ≡ r + j [MOD c] := h
  have h2 : i ≡ j [MOD c] := Nat.ModEq.add_left_cancel' r h1
  calc i = i % c := (Nat.mod_eq_of_lt hi).symm
    _ = j % c := h2
    _ = j := Nat.mod_eq_of_lt hj

theorem length_readSlots {T : Type} [Inhabited T] (c : Nat) (buf : List T) (i n : Nat) :
    (readSlots c buf i n).length = n := by
  simp [readSlots]

namespace Pkg

variable {T : Type}

/-- Well-formedness of a `pkg/ringbuffer` state at an operation boundary:
backing slice of the declared positive capacity, positions in range, no
stored error, and the `full` flag only set when the positions coincide. -/
def Wf (s : RB T) : Prop :=
  s.buf.length = s.size ∧ 0 < s.size ∧ s.r < s.size ∧ s.w < s.size ∧
    s.err = none ∧ (s.isFull = true → s.w = s.r)

/-- The stored run of a `pkg/ringbuffer` state, read circularly from `r`. -/
def contents [Inhabited T] (s : RB T) : List T :=
  readSlots s.size s.buf s.r (Length s)

theorem contents_length [Inhabited T] (s : RB T) : (contents s).length = Length s := by
  simp [contents, readSlots]

theorem readErr_none (s : RB T) (h : s.err = none) : readErr s = none := by
  simp [readErr, h]

/-- `Length` with no stored error, in closed form. -/
theorem Length_eq (s : RB T) (herr : s.err = none) :
    Length s = if s.isFull then s.size
               else if s.w ≥ s.r then s.w - s.r else s.size - s.r + s.w := by
  simp [Length, herr]

theorem Length_eq_full (s : RB T) (herr : s.err = none) (hif : s.isFull = true) :
    Length s = s.size := by
  simp [Length, herr, hif]

theorem Length_eq_of_ge (s : RB T) (herr : s.err = none) (hif : s.isFull = false)
    (hwr : s.w ≥ s.r) : Length s = s.w - s.r := by
  simp [Length, herr, hif, hwr]

theorem Length_eq_of_lt (s : RB T) (herr : s.err = none) (hif : s.isFull = false)
    (hwr : ¬ s.w ≥ s.r) : Length s = s.size - s.r + s.w := by
  simp [Length, herr, hif, hwr]

/-- A state whose write position sits `n` slots past `r` (circularly) and
whose `full` flag encodes `n = size` stores exactly `n` items. -/
theorem Length_run [Inhabited T] (s : RB T) (c r0 n : Nat)
    (hc : 0 < c) (hr : r0 < c) (hn : n ≤ c)
    (hsize : s.size = c) (hsr : s.r = r0) (hsw : s.w = (r0 + n) % c)
    (hfull : s.isFull = decide (n = c)) (herr : s.err = none) :
    Length s = n := by
  have hw2 : (r0 + n < c ∧ s.w = r0 + n) ∨ (c ≤ r0 + n ∧ s.w = r0 + n - c) := by
    rcases lt_or_ge (r0 + n) c with hlt | hge
    · exact Or.inl ⟨hlt, by rw [hsw, Nat.mod_eq_of_lt hlt]⟩
    · refine Or.inr ⟨hge, ?_⟩
      have h2 : r0 + n - c < c := by omega
      rw [hsw, Nat.mod_eq_sub_mod hge, Nat.mod_eq_of_lt h2]
  by_cases hnc : n = c
  · have hif : s.isFull = true := by simp [hfull, hnc]
    rw [Length_eq_full s herr hif, hsize, hnc]
  · have hif : s.isFull = false := by simp [hfull, hnc]
    have hnlt : n < c := lt_of_le_of_ne hn hnc
    by_cases hwr : s.w ≥ s.r
    · rw [Length_eq_of_ge s herr hif hwr]
      rcases hw2 with ⟨h1, h2⟩ | ⟨h1, h2⟩ <;> rw [hsr] at hwr ⊢ <;> omega
    · rw [Length_eq_of_lt s herr hif hwr, hsize]
      rcases hw2 with ⟨h1, h2⟩ | ⟨h1, h2⟩ <;> rw [hsr] at hwr ⊢ <;> omega

/-- The write position sits `Length s` slots past `r`, circularly. -/
theorem w_eq_add_length [Inhabited T] (s : RB T) (h : Wf s) :
    s.w = (s.r + Length s) % s.size := by
  obtain ⟨hbuf, hc, hr, hw, herr, hfull⟩ := h
  cases hif : s.isFull with
  | true =>
    have hwr := hfull hif
    rw [Length_eq_full s herr hif, hwr, Nat.add_mod_right, Nat.mod_eq_of_lt hr]
  | false =>
    by_cases hwr : s.w ≥ s.r
    · rw [Length_eq_of_ge s herr hif hwr]
      have harith : s.r + (s.w - s.r) = s.w := by omega
      rw [harith, Nat.mod_eq_of_lt hw]
    · rw [Length_eq_of_lt s herr hif hwr]
      have harith : s.r + (s.size - s.r + s.w) = s.size + s.w := by omega
      rw [harith, Nat.add_mod_left, Nat.mod_eq_of_lt hw]

theorem Length_le_size [Inhabited T] (s : RB T) (h : Wf s) : Length s ≤ s.size := by
  obtain ⟨hbuf, hc, hr, hw, herr, hfull⟩ := h
  cases hif : s.isFull with
  | true => rw [Length_eq_full s herr hif]
  | false =>
    by_cases hwr : s.w ≥ s.r
    · rw [Length_eq_of_ge s herr hif hwr]; omega
    · rw [Length_eq_of_lt s herr hif hwr]; omega

theorem Length_lt_of_not_full [Inhabited T] (s : RB T) (h : Wf s)
    (hif : s.isFull = false) : Length s < s.size := by
  obtain ⟨hbuf, hc, hr, hw, herr, hfull⟩ := h
  by_cases hwr : s.w ≥ s.r
  · rw [Length_eq_of_ge s herr hif hwr]; omega
  · rw [Length_eq_of_lt s herr hif hwr]; omega

theorem Length_eq_zero_of_empty [Inhabited T] (s : RB T) (h : Wf s)
    (hif : s.isFull = false) (hwr : s.w = s.r) : Length s = 0 := by
  obtain ⟨hbuf, hc, hr, hw, herr, hfull⟩ := h
  rw [Length_eq_of_ge s herr hif (le_of_eq hwr.symm)]
  omega

theorem Length_pos_of_not_empty [Inhabited T] (s : RB T) (h : Wf s)
    (hne : ¬ (s.w = s.r ∧ s.isFull = false)) : 0 < Length s := by
  obtain ⟨hbuf, hc, hr, hw, herr, hfull⟩ := h
  cases hif : s.isFull with
  | true => rw [Length_eq_full s herr hif]; omega
  | false =>
    have hwr : ¬ s.w = s.r := fun he => hne ⟨he, hif⟩
    by_cases hge : s.w ≥ s.r
    · rw [Length_eq_of_ge s herr hif hge]; omega
    · rw [Length_eq_of_lt s herr hif hge]; omega

/-- The state after the store step of `Write`/`TryWrite`: item stored at
`w`, `w` advanced modulo the size, `full` recomputed as `w == r`. -/
def writeUpd (s : RB T) (x : T) : RB T :=
  { s with buf := s.buf.set s.w x, w := (s.w + 1) % s.size,
           isFull := decide ((s.w + 1) % s.size = s.r) }

/-- The state after the consume step of `GetOne`/`TryRead`: `r` advanced
modulo the size, `full` cleared. -/
def readUpd (s : RB T) : RB T :=
  { s with r := (s.r + 1) % s.size, isFull := false }

/-- A successful `Write` on a non-full well-formed buffer: the exact post
state, and its effect on the abstract stored run (append on the right). -/
theorem Write_ok [Inhabited T] (s : RB T) (x : T) (h : Wf s) (hlt : Length s < s.size) :
    Write s x = (.ret none, writeUpd s x) ∧
    Wf (writeUpd s x) ∧ (writeUpd s x).size = s.size ∧ (writeUpd s x).block = s.block ∧
    Length (writeUpd s x) = Length s + 1 ∧
    contents (writeUpd s x) = contents s ++ [x] := by
  obtain ⟨hbuf, hc, hr, hw, herr, hfull⟩ := h
  have hif : s.isFull = false := by
    cases hif : s.isFull
    · rfl
    · rw [Length_eq_full s herr hif] at hlt; omega
  have hre : readErr s = none := readErr_none s herr
  have hWrite : Write s x = (.ret none, writeUpd s x) := by
    simp [Write, writeUpd, hre, hif]
  set L := Length s with hL
  have hwl : s.w = (s.r + L) % s.size := w_eq_add_length s ⟨hbuf, hc, hr, hw, herr, hfull⟩
  have hw1 : (s.w + 1) % s.size = (s.r + (L + 1)) % s.size := by
    rw [hwl, Nat.mod_add_mod, ← Nat.add_assoc]
  have hfulliff : ((s.w + 1) % s.size = s.r) ↔ (L + 1 = s.size) := by
    constructor
    · intro heq
      by_contra hne
      have hlt1 : L + 1 < s.size := by omega
      have h0 : (s.r + (L + 1)) % s.size = (s.r + 0) % s.size := by
        rw [← hw1, heq, Nat.add_zero, Nat.mod_eq_of_lt hr]
      exact absurd (add_mod_inj hlt1 hc h0) (by omega)
    · intro hL1
      rw [hw1, hL1, Nat.add_mod_right, Nat.mod_eq_of_lt hr]
  have hfull' : (decide ((s.w + 1) % s.size = s.r)) = decide (L + 1 = s.size) :=
    decide_eq_decide.mpr hfulliff
  have hLen : Length (writeUpd s x) = L + 1 :=
    Length_run _ s.size s.r (L + 1) hc hr (by omega) rfl rfl hw1 hfull' herr
  have hWf' : Wf (writeUpd s x) := by
    refine ⟨by simpa [writeUpd] using hbuf, hc, hr, Nat.mod_lt _ hc, herr, ?_⟩
    intro hift
    exact of_decide_eq_true hift
  refine ⟨hWrite, hWf', rfl, rfl, hLen, ?_⟩
  show readSlots (writeUpd s x).size (writeUpd s x).buf (writeUpd s x).r
      (Length (writeUpd s x)) = contents s ++ [x]
  rw [hLen]
  show readSlots s.size (s.buf.set s.w x) s.r (L + 1) = contents s ++ [x]
  unfold readSlots
  rw [List.range_succ, List.map_append]
  congr 1
  · have hmap : ∀ k ∈ List.range L,
        (s.buf.set s.w x).getD ((s.r + k) % s.size) default
          = s.buf.getD ((s.r + k) % s.size) default := by
      intro k hk
      have hkL : k < L := List.mem_range.mp hk
      have hLlt : L < s.size := hlt
      apply getD_set_ne
      intro heq
      have hsame : (s.r + L) % s.size = (s.r + k) % s.size := by rw [← hwl, heq]
      have := add_mod_inj hLlt (by omega) hsame
      omega
    rw [List.map_congr_left hmap]
    rfl
  · have hws : (s.r + L) % s.size = s.w := hwl.symm
    rw [List.map_singleton, hws, getD_set_self]
    omega

/-- A successful `GetOne` on a non-empty well-formed buffer: the exact post
state, and its effect on the abstract stored run (pop from the front). -/
theorem GetOne_ok [Inhabited T] (s : RB T) (h : Wf s) (hpos : 0 < Length s) :
    GetOne s = (.ret (s.buf.getD s.r default, none), readUpd s) ∧
    Wf (readUpd s) ∧ (readUpd s).size = s.size ∧ (readUpd s).block = s.block ∧
    Length (readUpd s) = Length s - 1 ∧
    contents s = s.buf.getD s.r default :: contents (readUpd s) := by
  obtain ⟨hbuf, hc, hr, hw, herr, hfull⟩ := h
  have hLle : Length s ≤ s.size := Length_le_size s ⟨hbuf, hc, hr, hw, herr, hfull⟩
  have hne : ¬ (s.w = s.r ∧ s.isFull = false) := by
    rintro ⟨h1, h2⟩
    rw [Length_eq_zero_of_empty s ⟨hbuf, hc, hr, hw, herr, hfull⟩ h2 h1] at hpos
    omega
  have hGet : GetOne s = (.ret (s.buf.getD s.r default, none), readUpd s) := by
    simp [GetOne, readUpd, readErr, herr, hne]
  set L := Length s with hL
  have hwl : s.w = (s.r + L) % s.size := w_eq_add_length s ⟨hbuf, hc, hr, hw, herr, hfull⟩
  have hsw : (readUpd s).w = ((s.r + 1) % s.size + (L - 1)) % s.size := by
    show s.w = ((s.r + 1) % s.size + (L - 1)) % s.size
    rw [Nat.mod_add_mod]
    rw [hwl]
    congr 1
    omega
  have hfull' : (readUpd s).isFull = decide (L - 1 = s.size) := by
    show false = decide (L - 1 = s.size)
    rw [decide_eq_false (by omega : ¬ (L - 1 = s.size))]
  have hLen : Length (readUpd s) = L - 1 :=
    Length_run _ s.size ((s.r + 1) % s.size) (L - 1) hc (Nat.mod_lt _ hc) (by omega)
      rfl rfl hsw hfull' herr
  have hWf' : Wf (readUpd s) := by
    refine ⟨hbuf, hc, Nat.mod_lt _ hc, hw, herr, ?_⟩
    intro hift
    exact absurd hift (by simp [readUpd])
  refine ⟨hGet, hWf', rfl, rfl, hLen, ?_⟩
  obtain ⟨L', hL'⟩ : ∃ L', L = L' + 1 := ⟨L - 1, by omega⟩
  show readSlots s.size s.buf s.r L
      = s.buf.getD s.r default :: readSlots (readUpd s).size (readUpd s).buf (readUpd s).r
          (Length (readUpd s))
  rw [hLen, hL']
  show readSlots s.size s.buf s.r (L' + 1)
      = s.buf.getD s.r default :: readSlots s.size s.buf ((s.r + 1) % s.size) (L' + 1 - 1)
  unfold readSlots
  rw [List.range_succ_eq_map, List.map_cons, List.map_map]
  congr 1
  · rw [Nat.add_zero, Nat.mod_eq_of_lt hr]
  · simp only [Nat.add_sub_cancel]
    apply List.map_congr_left
    intro j hj
    simp only [Function.comp_apply, Nat.mod_add_mod]
    congr 2
    omega

/-- A sequence of single-item `Write` calls; `none` as soon as one call does
not return plain success. -/
def writeList [Inhabited T] : RB T → List T → Option (RB T)
  | s, [] => some s
  | s, x :: xs =>
    match Write s x with
    | (.ret none, s') => writeList s' xs
    | _ => none

/-- A sequence of `GetOne` calls collecting the returned items; `none` as
soon as one call does not return an item with no error. -/
def readList [Inhabited T] : RB T → Nat → Option (List T × RB T)
  | s, 0 => some ([], s)
  | s, n + 1 =>
    match GetOne s with
    | (.ret (x, none), s') =>
      match readList s' n with
      | some (xs, s'') => some (x :: xs, s'')
      | none => none
    | _ => none

theorem writeList_ok [Inhabited T] (xs : List T) :
    ∀ s : RB T, Wf s → Length s + xs.length ≤ s.size →
      ∃ s', writeList s xs = some s' ∧ Wf s' ∧ s'.size = s.size ∧
        contents s' = contents s ++ xs ∧ Length s' = Length s + xs.length := by
  induction xs with
  | nil =>
    intro s hwf hle
    exact ⟨s, rfl, hwf, rfl, by simp, by simp⟩
  | cons x xs ih =>
    intro s hwf hle
    have hlt : Length s < s.size := by
      have := List.length_cons x xs
      omega
    obtain ⟨hW, hwf', hsz, hblk, hlen, hcont⟩ := Write_ok s x hwf hlt
    obtain ⟨s', hws, hwf'', hsz', hcont', hlen'⟩ := ih (writeUpd s x)
      hwf' (by rw [hlen, hsz]; simp at hle ⊢; omega)
    refine ⟨s', ?_, hwf'', by rw [hsz', hsz], ?_, ?_⟩
    · show writeList s (x :: xs) = some s'
      unfold writeList
      rw [hW]
      exact hws
    · rw [hcont', hcont, List.append_assoc]
      rfl
    · rw [hlen', hlen]
      simp
      omega

theorem readList_ok [Inhabited T] (xs : List T) :
    ∀ s : RB T, Wf s → contents s = xs →
      ∃ s'', readList s xs.length = some (xs, s'') := by
  induction xs with
  | nil =>
    intro s hwf hcont
    exact ⟨s, rfl⟩
  | cons x xs ih =>
    intro s hwf hcont
    have hpos : 0 < Length s := by
      rw [← contents_length s, hcont]
      simp
    obtain ⟨hG, hwf', hsz, hblk, hlen, hcont'⟩ := GetOne_ok s hwf hpos
    rw [hcont] at hcont'
    have hx : s.buf.getD s.r default = x := (List.cons.injEq _ _ _ _ ▸ hcont').1.symm
    have htail : contents (readUpd s) = xs := ((List.cons.injEq _ _ _ _ ▸ hcont').2).symm
    obtain ⟨s'', hrd⟩ := ih (readUpd s) hwf' htail
    refine ⟨s'', ?_⟩
    show readList s (xs.length + 1) = some (x :: xs, s'')
    unfold readList
    rw [hG, hx]
    simp [hrd]

/-- The state after the consume step of `GetN`/`GetNView`: `r` advanced by
`n` modulo the size, `full` cleared. -/
def dropUpd (s : RB T) (n : Nat) : RB T :=
  { s with r := (s.r + n) % s.size, isFull := false }

/-- A successful `GetN` on a well-formed buffer holding at least `n ≥ 1`
items: the exact post state and the split of the stored run. -/
theorem GetN_ok [Inhabited T] (s : RB T) (n : Nat) (h : Wf s) (hn1 : 1 ≤ n)
    (hnle : n ≤ Length s) :
    GetN s (n : Int) = (.ret (readSlots s.size s.buf s.r n, none), dropUpd s n) ∧
    Wf (dropUpd s n) ∧ (dropUpd s n).size = s.size ∧
    Length (dropUpd s n) = Length s - n ∧
    contents s = readSlots s.size s.buf s.r n ++ contents (dropUpd s n) := by
  obtain ⟨hbuf, hc, hr, hw, herr, hfull⟩ := h
  have hwf : Wf s := ⟨hbuf, hc, hr, hw, herr, hfull⟩
  have hLle : Length s ≤ s.size := Length_le_size s hwf
  set L := Length s with hL
  have hwl : s.w = (s.r + L) % s.size := w_eq_add_length s hwf
  have hre : readErr s = none := readErr_none s herr
  have hn0 : ¬ ((n : Int) ≤ 0) := by exact_mod_cast (by omega : ¬ ((n : Int) ≤ 0))
  have htn : (n : Int).toNat = n := by exact_mod_cast rfl
  have hGet : GetN s (n : Int) =
      (.ret (readSlots s.size s.buf s.r n, none), dropUpd s n) := by
    rw [GetN, if_neg hn0, hre]
    simp only [htn]
    rw [if_neg (by omega : ¬ (n > Length s))]
    show (Exec.ret (readSlots s.size s.buf s.r n, readErr (dropUpd s n)), dropUpd s n)
        = (Exec.ret (readSlots s.size s.buf s.r n, none), dropUpd s n)
    rw [readErr_none _ (show (dropUpd s n).err = none from herr)]
  have hsw : (dropUpd s n).w = ((s.r + n) % s.size + (L - n)) % s.size := by
    show s.w = ((s.r + n) % s.size + (L - n)) % s.size
    rw [Nat.mod_add_mod, hwl]
    congr 1
    omega
  have hfull' : (dropUpd s n).isFull = decide (L - n = s.size) := by
    show false = decide (L - n = s.size)
    rw [decide_eq_false (by omega : ¬ (L - n = s.size))]
  have hLen : Length (dropUpd s n) = L - n :=
    Length_run _ s.size ((s.r + n) % s.size) (L - n) hc (Nat.mod_lt _ hc) (by omega)
      rfl rfl hsw hfull' herr
  have hWf' : Wf (dropUpd s n) := by
    refine ⟨hbuf, hc, Nat.mod_lt _ hc, hw, herr, ?_⟩
    intro hift
    exact absurd hift (by simp [dropUpd])
  refine ⟨hGet, hWf', rfl, hLen, ?_⟩
  show readSlots s.size s.buf s.r L
      = readSlots s.size s.buf s.r n
        ++ readSlots (dropUpd s n).size (dropUpd s n).buf (dropUpd s n).r (Length (dropUpd s n))
  rw [hLen]
  show readSlots s.size s.buf s.r L
      = readSlots s.size s.buf s.r n ++ readSlots s.size s.buf ((s.r + n) % s.size) (L - n)
  obtain ⟨m, hm⟩ : ∃ m, L = n + m := ⟨L - n, by omega⟩
  rw [hm, Nat.add_sub_cancel_left]
  unfold readSlots
  rw [List.range_add, List.map_append, List.map_map]
  congr 1
  apply List.map_congr_left
  intro j hj
  simp only [Function.comp_apply, Nat.mod_add_mod]
  congr 2
  omega

/-- A freshly constructed `pkg/ringbuffer` buffer is well-formed and empty. -/
theorem New_ok (T : Type) [Inhabited T] (c : Nat) (s0 : RB T) (h0 : New T c = some s0) :
    Wf s0 ∧ s0.size = c ∧ contents s0 = [] ∧ Length s0 = 0 := by
  by_cases hc : c = 0
  · rw [New, if_pos hc] at h0
    exact absurd h0 (by simp)
  · rw [New, if_neg hc] at h0
    have hs0 := Option.some.inj h0
    subst hs0
    have hcpos : 0 < c := Nat.pos_of_ne_zero hc
    refine ⟨⟨by simp, hcpos, hcpos, hcpos, rfl, by simp⟩, rfl, ?_, ?_⟩
    · simp [contents, Length, readSlots]
    · simp [Length]

end Pkg

/-! ### Claim C1 -/

/-- C1: starting from an empty `pkg/ringbuffer` buffer of capacity `c`, any
`k ≤ c` single-item `Write` calls all succeed, and the following `k` `GetOne`
calls return exactly the written items in write order (FIFO). -/
theorem C1_write_read_fifo (T : Type) [Inhabited T] (c : Nat) (s0 : RB T)
    (h0 : Pkg.New T c = some s0) (xs : List T) (hlen : xs.length ≤ c) :
    ∃ s', Pkg.writeList s0 xs = some s' ∧
      ∃ s'', Pkg.readList s' xs.length = some (xs, s'') := by
  obtain ⟨hwf, hsz, hcont, hLen⟩ := Pkg.New_ok T c s0 h0
  obtain ⟨s', hws, hwf', hsz', hcont', hlen'⟩ :=
    Pkg.writeList_ok xs s0 hwf (by rw [hLen, hsz]; omega)
  rw [hcont] at hcont'
  obtain ⟨s'', hrd⟩ := Pkg.readList_ok xs s' hwf' (by simpa using hcont')
  exact ⟨s', hws, s'', hrd⟩

/-- Witness for C1 at capacity 3 with the items `[5, 6, 7]`. -/
theorem C1_witness :
    ∃ s', Pkg.writeList
        ({ buf := [0, 0, 0], size := 3, r := 0, w := 0, isFull := false } : RB Nat)
        [5, 6, 7] = some s' ∧
      ∃ s'', Pkg.readList s' 3 = some ([5, 6, 7], s'') :=
  C1_write_read_fifo Nat 3 _ rfl [5, 6, 7] (by decide)

/-! ### Claim C4 -/

/-- C4 counterexample: `GetAllView` has no nil check — called through a nil
handle it immediately executes `r.mu.Lock()`, dereferencing the handle
(modelled as the `Exec.nilPanic` outcome), instead of returning the
nil-buffer error. -/
theorem C4_counterexample :
    Pkg.GetAllViewH (none : Option (RB Nat)) = (.nilPanic, none) ∧
    (Pkg.GetAllViewH (none : Option (RB Nat))).1 ≠ .ret ([], [], some RBErr.nilBuffer) := by
  decide

/-- C4 (amended): on a nil handle, `Write`, `GetOne`, `GetN`, `PeekOne` and
`PeekN` (the latter for positive `n`; for `n ≤ 0` its length check fires
first) return the nil-buffer error without touching internal state, but
`PeekNView` (positive `n`), `GetAllView`, `GetNView` (positive `n`) and
`WriteMany` (non-empty input) have no nil check and dereference the handle. -/
theorem C4_nil_handle (T : Type) [Inhabited T] (x : T) (xs : List T) (n : Int)
    (hn : 0 < n) (hxs : xs ≠ []) :
    Pkg.WriteH (none : Option (RB T)) x = (.ret (some RBErr.nilBuffer), none) ∧
    Pkg.GetOneH (none : Option (RB T)) = (.ret (default, some RBErr.nilBuffer), none) ∧
    Pkg.GetNH (none : Option (RB T)) n = (.ret ([], some RBErr.nilBuffer), none) ∧
    Pkg.PeekOneH (none : Option (RB T)) = (.ret (default, some RBErr.nilBuffer), none) ∧
    Pkg.PeekNH (none : Option (RB T)) n = (.ret ([], some RBErr.nilBuffer), none) ∧
    Pkg.PeekNViewH (none : Option (RB T)) n = (.nilPanic, none) ∧
    Pkg.GetAllViewH (none : Option (RB T)) = (.nilPanic, none) ∧
    Pkg.GetNViewH (none : Option (RB T)) n = (.nilPanic, none) ∧
    Pkg.WriteManyH (none : Option (RB T)) xs = (.nilPanic, none) := by
  have hn0 : ¬ (n ≤ 0) := by omega
  have hxs0 : ¬ (xs.length = 0) := by
    intro h0
    exact hxs (List.length_eq_zero.mp h0)
  refine ⟨rfl, rfl, rfl, rfl, ?_, ?_, rfl, ?_, ?_⟩
  · simp only [Pkg.PeekNH, if_neg hn0]
  · simp only [Pkg.PeekNViewH, if_neg hn0]
  · simp only [Pkg.GetNViewH, if_neg hn0]
  · simp only [Pkg.WriteManyH, if_neg hxs0]

/-- Witness for C4 at `x = 0`, `xs = [1]`, `n = 1`. -/
theorem C4_witness :
    Pkg.WriteH (none : Option (RB Nat)) 0 = (.ret (some RBErr.nilBuffer), none) ∧
    Pkg.GetOneH (none : Option (RB Nat)) = (.ret (default, some RBErr.nilBuffer), none) ∧
    Pkg.GetNH (none : Option (RB Nat)) 1 = (.ret ([], some RBErr.nilBuffer), none) ∧
    Pkg.PeekOneH (none : Option (RB Nat)) = (.ret (default, some RBErr.nilBuffer), none) ∧
    Pkg.PeekNH (none : Option (RB Nat)) 1 = (.ret ([], some RBErr.nilBuffer), none) ∧
    Pkg.PeekNViewH (none : Option (RB Nat)) 1 = (.nilPanic, none) ∧
    Pkg.GetAllViewH (none : Option (RB Nat)) = (.nilPanic, none) ∧
    Pkg.GetNViewH (none : Option (RB Nat)) 1 = (.nilPanic, none) ∧
    Pkg.WriteManyH (none : Option (RB Nat)) [1] = (.nilPanic, none) :=
  C4_nil_handle Nat 0 [1] 1 (by decide) (by decide)

/-! ### Claim C9 -/

/-- C9: `PeekOne`, `PeekN(n)` and `PeekNView(n)` return the buffer state
unchanged on every path (success or failure, any `n`), while `GetN(n)`
removes exactly the items it returns: on the success path the returned
items are the first `n` elements of the stored run and the remaining run is
the rest; on every non-success path the state is returned unchanged. -/
theorem C9_peeks_pure_getn_removes (T : Type) [Inhabited T] (s : RB T) (n : Int)
    (h : Pkg.Wf s) :
    (Pkg.PeekOne s).2 = s ∧ (Pkg.PeekN s n).2 = s ∧ (Pkg.PeekNView s n).2 = s ∧
    (0 < n → n.toNat ≤ Pkg.Length s →
      (Pkg.GetN s n).1 = .ret ((Pkg.contents s).take n.toNat, none) ∧
      Pkg.contents (Pkg.GetN s n).2 = (Pkg.contents s).drop n.toNat) ∧
    (¬ (0 < n ∧ n.toNat ≤ Pkg.Length s) → (Pkg.GetN s n).2 = s) := by
  obtain ⟨hbuf, hc, hr, hw, herr, hfull⟩ := h
  have hwf : Pkg.Wf s := ⟨hbuf, hc, hr, hw, herr, hfull⟩
  have hre : Pkg.readErr s = none := Pkg.readErr_none s herr
  refine ⟨?_, ?_, ?_, ?_, ?_⟩
  · simp only [Pkg.PeekOne, hre]
    split_ifs <;> rfl
  · simp only [Pkg.PeekN, hre]
    split_ifs <;> rfl
  · simp only [Pkg.PeekNView, hre]
    split_ifs <;> rfl
  · intro hn hle
    have hmn : ((n.toNat : Nat) : Int) = n := Int.toNat_of_nonneg (le_of_lt hn)
    have hm1 : 1 ≤ n.toNat := by omega
    obtain ⟨hGet, hWf', hsz, hLen, hcont⟩ := Pkg.GetN_ok s n.toNat hwf hm1 hle
    rw [hmn] at hGet
    have hlenrs : (readSlots s.size s.buf s.r n.toNat).length = n.toNat :=
      length_readSlots s.size s.buf s.r n.toNat
    constructor
    · rw [hGet]
      show Exec.ret (readSlots s.size s.buf s.r n.toNat, none)
          = Exec.ret ((Pkg.contents s).take n.toNat, none)
      rw [hcont, List.take_left' hlenrs]
    · rw [hGet]
      show Pkg.contents (Pkg.dropUpd s n.toNat) = (Pkg.contents s).drop n.toNat
      rw [hcont, List.drop_left' hlenrs]
  · intro hbad
    by_cases hn0 : n ≤ 0
    · simp only [Pkg.GetN, if_pos hn0]
    · have hn : 0 < n := by omega
      have hgt : Pkg.Length s < n.toNat := by
        rcases Nat.lt_or_ge (Pkg.Length s) n.toNat with h1 | h1
        · exact h1
        · exact absurd ⟨hn, h1⟩ hbad
      simp only [Pkg.GetN, if_neg hn0, hre]
      rw [if_pos (by omega : n.toNat > Pkg.Length s)]
      split_ifs <;> rfl

/-- Witness for C9 on a full capacity-2 buffer `[4, 5]` with `n = 1`. -/
theorem C9_witness :
    (Pkg.PeekOne (⟨[4, 5], 2, 0, 0, true, none, false, false, false⟩ : RB Nat)).2
      = (⟨[4, 5], 2, 0, 0, true, none, false, false, false⟩ : RB Nat) ∧
    (Pkg.PeekN (⟨[4, 5], 2, 0, 0, true, none, false, false, false⟩ : RB Nat) 1).2
      = (⟨[4, 5], 2, 0, 0, true, none, false, false, false⟩ : RB Nat) ∧
    (Pkg.PeekNView (⟨[4, 5], 2, 0, 0, true, none, false, false, false⟩ : RB Nat) 1).2
      = (⟨[4, 5], 2, 0, 0, true, none, false, false, false⟩ : RB Nat) ∧
    (Pkg.GetN (⟨[4, 5], 2, 0, 0, true, none, false, false, false⟩ : RB Nat) 1).1
      = .ret ((Pkg.contents (⟨[4, 5], 2, 0, 0, true, none, false, false, false⟩ : RB Nat)).take 1, none) ∧
    Pkg.contents (Pkg.GetN (⟨[4, 5], 2, 0, 0, true, none, false, false, false⟩ : RB Nat) 1).2
      = (Pkg.contents (⟨[4, 5], 2, 0, 0, true, none, false, false, false⟩ : RB Nat)).drop 1 := by
  have h := C9_peeks_pure_getn_removes Nat
    (⟨[4, 5], 2, 0, 0, true, none, false, false, false⟩ : RB Nat) 1
    ⟨by decide, by decide, by decide, by decide, rfl, by decide⟩
  obtain ⟨h1, h2, h3, h4, h5⟩ := h
  obtain ⟨h6, h7⟩ := h4 (by decide) (by decide)
  exact ⟨h1, h2, h3, h6, h7⟩

/-! ### Claim C7 -/

/-- C7 counterexample: a capacity-3 buffer with `r = 2`, `w = 1` stores a
run of 2 elements that wraps past the physical end (`r + Length > size`),
yet `GetNView 1` returns a single non-empty part with the second part
empty, because the requested single element does not itself cross the
physical end — the claim demanded two non-empty parts for every valid `n`
on a wrapped buffer. -/
theorem C7_counterexample :
    Pkg.Length (⟨[10, 20, 30], 3, 2, 1, false, none, false, false, false⟩ : RB Nat) = 2 ∧
    (⟨[10, 20, 30], 3, 2, 1, false, none, false, false, false⟩ : RB Nat).size
      < (⟨[10, 20, 30], 3, 2, 1, false, none, false, false, false⟩ : RB Nat).r
        + Pkg.Length (⟨[10, 20, 30], 3, 2, 1, false, none, false, false, false⟩ : RB Nat) ∧
    Pkg.GetNView (⟨[10, 20, 30], 3, 2, 1, false, none, false, false, false⟩ : RB Nat) 1
      = (.ret ([30], [], none),
         ⟨[10, 20, 30], 3, 0, 1, false, none, false, false, false⟩) := by
  decide

/-- C7 (amended): for a well-formed buffer holding at least `n ≥ 1` items
(`n` within capacity), `GetNView n` succeeds, returns a non-empty first
part, parts whose combined length is `n`, a second part that is non-empty
exactly when the REQUESTED run of `n` elements crosses the physical end
(`¬ w > r` and `n > size - r`), and advances `r` by `n` modulo the size
while clearing `full`; `GetAllView` likewise succeeds, returns parts
covering the whole stored run (combined length `Length s`), the second
non-empty exactly when the STORED run crosses the physical end
(`¬ w > r` and `w > 0`), and sets `r` to `w` while clearing `full`. -/
theorem C7_views_wrap (T : Type) [Inhabited T] (s : RB T) (n : Int) (h : Pkg.Wf s)
    (hn : 0 < n) (hns : n ≤ (s.size : Int)) (hnav : n.toNat ≤ Pkg.Length s) :
    (∃ p1 p2,
      Pkg.GetNView s n = (.ret (p1, p2, none), Pkg.dropUpd s n.toNat) ∧
      p1 ≠ [] ∧ p1.length + p2.length = n.toNat ∧
      (p2 ≠ [] ↔ (¬ s.w > s.r ∧ s.size - s.r < n.toNat))) ∧
    (∃ q1 q2,
      Pkg.GetAllView s = (.ret (q1, q2, none), { s with r := s.w, isFull := false }) ∧
      q1 ≠ [] ∧ q1.length + q2.length = Pkg.Length s ∧
      (q2 ≠ [] ↔ (¬ s.w > s.r ∧ 0 < s.w))) := by
  obtain ⟨hbuf, hc, hr, hw, herr, hfull⟩ := h
  have hwf : Pkg.Wf s := ⟨hbuf, hc, hr, hw, herr, hfull⟩
  have hre : Pkg.readErr s = none := Pkg.readErr_none s herr
  have hLle : Pkg.Length s ≤ s.size := Pkg.Length_le_size s hwf
  have hm1 : 1 ≤ n.toNat := by omega
  have hmc : n.toNat ≤ s.size := by omega
  have hnotempty : ¬ (s.w = s.r ∧ s.isFull = false) := by
    rintro ⟨h1, h2⟩
    rw [Pkg.Length_eq_zero_of_empty s hwf h2 h1] at hnav
    omega
  constructor
  · -- GetNView
    have hn0 : ¬ (n ≤ 0) := by omega
    have hns2 : ¬ (n > (s.size : Int)) := by omega
    have hguard : ¬ (Pkg.Length s < n.toNat ∨ (s.w = s.r ∧ s.isFull = false)) := by
      rintro (h1 | h2)
      · omega
      · exact hnotempty h2
    have hre2 : Pkg.readErr (Pkg.dropUpd s n.toNat) = none :=
      Pkg.readErr_none _ (show (Pkg.dropUpd s n.toNat).err = none from herr)
    by_cases hbr : s.w > s.r ∨ n.toNat ≤ s.size - s.r
    · refine ⟨(s.buf.drop s.r).take n.toNat, [], ?_, ?_, ?_, ?_⟩
      · simp only [Pkg.GetNView, if_neg hn0, if_neg hns2, hre, if_neg hguard, if_pos hbr]
        simp [Pkg.readErr, Pkg.dropUpd, herr]
      · have hmcr : n.toNat ≤ s.size - s.r := by
          rcases hbr with hlt | hle
          · have hif : s.isFull = false := by
              cases hif2 : s.isFull
              · rfl
              · have := hfull hif2; omega
            have hL : Pkg.Length s = s.w - s.r :=
              Pkg.Length_eq_of_ge s herr hif (le_of_lt hlt)
            omega
          · exact hle
        have hlen : ((s.buf.drop s.r).take n.toNat).length = n.toNat := by
          rw [List.length_take, List.length_drop, hbuf]
          omega
        intro hnil
        rw [hnil] at hlen
        simp at hlen
        omega
      · have hmcr : n.toNat ≤ s.size - s.r := by
          rcases hbr with hlt | hle
          · have hif : s.isFull = false := by
              cases hif2 : s.isFull
              · rfl
              · have := hfull hif2; omega
            have hL : Pkg.Length s = s.w - s.r :=
              Pkg.Length_eq_of_ge s herr hif (le_of_lt hlt)
            omega
          · exact hle
        rw [List.length_take, List.length_drop, hbuf, List.length_nil]
        omega
      · simp only [ne_eq, not_true_eq_false, false_iff, not_and, not_lt]
        intro hnw
        rcases hbr with hlt | hle
        · omega
        · exact hle
    · push_neg at hbr
      obtain ⟨hwr, hcr⟩ := hbr
      refine ⟨s.buf.drop s.r, s.buf.take (n.toNat - (s.size - s.r)), ?_, ?_, ?_, ?_⟩
      · simp only [Pkg.GetNView, if_neg hn0, if_neg hns2, hre, if_neg hguard,
          if_neg (by push_neg; exact ⟨hwr, hcr⟩ :
            ¬ (s.w > s.r ∨ n.toNat ≤ s.size - s.r))]
        simp [Pkg.readErr, Pkg.dropUpd, herr]
      · intro hnil
        have := congrArg List.length hnil
        rw [List.length_drop, hbuf] at this
        simp at this
        omega
      · rw [List.length_drop, List.length_take, hbuf]
        omega
      · constructor
        · intro _
          exact ⟨by omega, by omega⟩
        · intro _
          intro hnil
          have := congrArg List.length hnil
          rw [List.length_take, hbuf] at this
          simp at this
          omega
  · -- GetAllView
    have hre3 : Pkg.readErr ({ s with r := s.w, isFull := false } : RB T) = none :=
      Pkg.readErr_none _ herr
    by_cases hwgt : s.w > s.r
    · have hif : s.isFull = false := by
        cases hif2 : s.isFull
        · rfl
        · have := hfull hif2; omega
      have hL : Pkg.Length s = s.w - s.r := Pkg.Length_eq_of_ge s herr hif (le_of_lt hwgt)
      refine ⟨(s.buf.drop s.r).take (s.w - s.r), [], ?_, ?_, ?_, ?_⟩
      · simp only [Pkg.GetAllView, hre, if_neg hnotempty, if_pos hwgt]
        simp [Pkg.readErr, herr]
      · intro hnil
        have := congrArg List.length hnil
        rw [List.length_take, List.length_drop, hbuf] at this
        simp at this
        omega
      · rw [List.length_take, List.length_drop, hbuf, List.length_nil, hL]
        omega
      · simp only [ne_eq, not_true_eq_false, false_iff, not_and, not_lt]
        intro hnw
        omega
    · refine ⟨s.buf.drop s.r, s.buf.take s.w, ?_, ?_, ?_, ?_⟩
      · simp only [Pkg.GetAllView, hre, if_neg hnotempty, if_neg hwgt]
        simp [Pkg.readErr, herr]
      · intro hnil
        have := congrArg List.length hnil
        rw [List.length_drop, hbuf] at this
        simp at this
        omega
      · rw [List.length_drop, List.length_take, hbuf]
        cases hif2 : s.isFull with
        | true =>
          have hweq := hfull hif2
          rw [Pkg.Length_eq_full s herr hif2]
          omega
        | false =>
          have hwne : ¬ s.w = s.r := by
            intro he
            exact hnotempty ⟨he, hif2⟩
          have hL : Pkg.Length s = s.size - s.r + s.w :=
            Pkg.Length_eq_of_lt s herr hif2 (by omega)
          omega
      · constructor
        · intro hnil2
          refine ⟨hwgt, ?_⟩
          by_contra hw0
          have hweq0 : s.w = 0 := by omega
          rw [hweq0] at hnil2
          simp at hnil2
        · rintro ⟨_, hwpos⟩
          intro hnil
          have := congrArg List.length hnil
          rw [List.length_take, hbuf] at this
          simp at this
          omega

/-- Witness for C7 on a fully wrapped capacity-3 buffer (`r = 2`, `w = 1`,
two stored items) with `n = 2`: both views return two non-empty parts. -/
theorem C7_witness :
    (∃ p1 p2,
      Pkg.GetNView (⟨[10, 20, 30], 3, 2, 1, false, none, false, false, false⟩ : RB Nat) 2
        = (.ret (p1, p2, none),
           Pkg.dropUpd (⟨[10, 20, 30], 3, 2, 1, false, none, false, false, false⟩ : RB Nat) 2) ∧
      p1 ≠ [] ∧ p1.length + p2.length = 2 ∧
      (p2 ≠ [] ↔ (¬ (1 : Nat) > 2 ∧ 3 - 2 < 2))) ∧
    (∃ q1 q2,
      Pkg.GetAllView (⟨[10, 20, 30], 3, 2, 1, false, none, false, false, false⟩ : RB Nat)
        = (.ret (q1, q2, none),
           { (⟨[10, 20, 30], 3, 2, 1, false, none, false, false, false⟩ : RB Nat) with
               r := 1, isFull := false }) ∧
      q1 ≠ [] ∧
      q1.length + q2.length
        = Pkg.Length (⟨[10, 20, 30], 3, 2, 1, false, none, false, false, false⟩ : RB Nat) ∧
      (q2 ≠ [] ↔ (¬ (1 : Nat) > 2 ∧ 0 < 1))) :=
  C7_views_wrap Nat (⟨[10, 20, 30], 3, 2, 1, false, none, false, false, false⟩ : RB Nat) 2
    ⟨by decide, by decide, by decide, by decide, rfl, by decide⟩
    (by decide) (by decide) (by decide)

/-! ### Claim C2 -/

/-- In the root-package write loop, the `overwrite` branch of
`handleBufferFull` never clears `isFull`, so the `for r.isFull` loop of
`Write` never exits on a full blocking overwriting buffer. -/
theorem writeLoop_overwrite_spins {T : Type} [Inhabited T] (x : T) :
    ∀ (fuel : Nat) (s : RB T), s.isFull = true → s.block = true → s.overwrite = true →
      (Root.writeLoop x fuel s).1 = Exec.outOfFuel := by
  intro fuel
  induction fuel with
  | zero =>
    intro s h1 h2 h3
    rfl
  | succ n ih =>
    intro s h1 h2 h3
    have hnb : ¬ s.block = false := by simp [h2]
    have hh : Root.handleBufferFull s =
        (.ret none, { s with r := (s.r + 1) % s.size, isFull := if (s.r + 1) % s.size = s.w then true else s.isFull }) := by
      rw [Root.handleBufferFull, if_neg hnb, if_pos (by simp [h3])]
    show (Root.writeLoop x (n + 1) s).1 = Exec.outOfFuel
    unfold Root.writeLoop
    rw [if_pos (by simp [h1]), hh]
    exact ih _ (by by_cases hrw : (s.r + 1) % s.size = s.w <;> simp [hrw, h1]) h2 h3

/-- C2 (code bug): on a full buffer with `overwrite` enabled, `Write` does
not succeed.  With blocking disabled (the constructor default, the setting
of `TestOverwriteMode`), both generations return `ErrIsFull` without storing
the item (`handleBufferFull` checks `!r.block` before `overwrite`; the
`pkg/ringbuffer` `Write` has no overwrite branch at all).  With blocking
enabled, the root-package write loop never terminates, because the
`overwrite` branch advances `r` but never clears `isFull`.  Failing input:
capacity 3, buffer `[1,2,3]` full, overwrite on, `Write 4`. -/
theorem C2_overwrite_full_write_fails :
    Root.Write 5 (⟨[1, 2, 3], 3, 0, 0, true, none, false, true, false⟩ : RB Nat) 4
      = (.ret (some RBErr.isFull), ⟨[1, 2, 3], 3, 0, 0, true, none, false, true, false⟩) ∧
    Pkg.Write (⟨[1, 2, 3], 3, 0, 0, true, none, false, true, false⟩ : RB Nat) 4
      = (.ret (some RBErr.isFull), ⟨[1, 2, 3], 3, 0, 0, true, none, false, true, false⟩) ∧
    ∀ fuel : Nat,
      (Root.writeLoop 4 fuel (⟨[1, 2, 3], 3, 0, 0, true, none, true, true, false⟩ : RB Nat)).1
        = Exec.outOfFuel := by
  refine ⟨by decide, by decide, fun fuel => writeLoop_overwrite_spins 4 fuel _ rfl rfl rfl⟩

/-! ### Claim C3 -/

/-- C3 counterexample: on the root package, after `Close` the next `Write`
returns success (`nil`), not a terminal/Closed error, because `Close` merely
resets the fields and sets `paused`; `GetOne` likewise reports success with
the zero value. -/
theorem C3_counterexample :
    (Root.Write 1 (Root.Close (⟨[0], 1, 0, 0, false, none, false, false, false⟩ : RB Nat)).2 5).1
      = Exec.ret none ∧
    (Root.GetOne (Root.Close (⟨[0], 1, 0, 0, false, none, false, false, false⟩ : RB Nat)).2).1
      = Exec.ret (0, none) := by
  decide

/-- C3 (amended): the `Close` cited by the claim (root package) does not
install a terminal error: it returns success, resets the positions and the
`full` flag (making the stored contents unreachable), clears the stored
error and sets `paused`; because the buffer is then paused, every
subsequent `Write` returns success without storing and every `GetOne`
returns success with the zero value (never a Closed/Full/Empty error), and
a second `Close` is a no-op returning success.  The sticky-error design the
claim describes exists in the current `pkg/ringbuffer` generation: there
`Close` stores the terminal `io.EOF` via `setErr` and clears the contents,
after which `Write`, `GetOne`, `GetN` (positive `n`) and `GetAllView` all
fail with the terminal error — never `Full`/`Empty` — and a second `Close`
is a no-op returning success. -/
theorem C3_close_pauses (T : Type) [Inhabited T] (fuel : Nat) (s s2 : RB T) (x : T)
    (n : Int) (herr2 : s2.err = none) (hn : 0 < n) :
    (Root.Close s).1 = none ∧
    (Root.Close s).2 = { s with r := 0, w := 0, isFull := false, err := none, paused := true } ∧
    Root.Write fuel (Root.Close s).2 x = (.ret none, (Root.Close s).2) ∧
    Root.GetOne (Root.Close s).2 = (.ret (default, none), (Root.Close s).2) ∧
    Root.Close (Root.Close s).2 = (none, (Root.Close s).2) ∧
    (Pkg.Close s2).1 = none ∧
    (Pkg.Close s2).2.err = some RBErr.eofErr ∧
    (Pkg.Close s2).2.r = 0 ∧ (Pkg.Close s2).2.w = 0 ∧ (Pkg.Close s2).2.isFull = false ∧
    Pkg.Write (Pkg.Close s2).2 x = (.ret (some RBErr.eofErr), (Pkg.Close s2).2) ∧
    Pkg.GetOne (Pkg.Close s2).2 = (.ret (default, some RBErr.eofErr), (Pkg.Close s2).2) ∧
    Pkg.GetN (Pkg.Close s2).2 n = (.ret ([], some RBErr.eofErr), (Pkg.Close s2).2) ∧
    Pkg.GetAllView (Pkg.Close s2).2 = (.ret ([], [], some RBErr.eofErr), (Pkg.Close s2).2) ∧
    Pkg.Close (Pkg.Close s2).2 = (none, (Pkg.Close s2).2) := by
  have herrc : (Pkg.Close s2).2.err = some RBErr.eofErr := by
    simp [Pkg.Close, herr2, Pkg.ClearBuffer]
  have hrc : (Pkg.Close s2).2.r = 0 := by
    simp [Pkg.Close, herr2, Pkg.ClearBuffer]
  have hwc : (Pkg.Close s2).2.w = 0 := by
    simp [Pkg.Close, herr2, Pkg.ClearBuffer]
  have hfc : (Pkg.Close s2).2.isFull = false := by
    simp [Pkg.Close, herr2, Pkg.ClearBuffer]
  have hreClosed : Pkg.readErr (Pkg.Close s2).2 = some RBErr.eofErr := by
    simp [Pkg.readErr, herrc, hrc, hwc, hfc]
  have hclose1 : (Pkg.Close s2).1 = none := by
    simp [Pkg.Close, herr2]
  refine ⟨rfl, rfl, ?_, ?_, ?_, hclose1, herrc, hrc, hwc, hfc, ?_, ?_, ?_, ?_, ?_⟩
  · simp [Root.Write, Root.Close]
  · simp [Root.GetOne, Root.Close]
  · simp [Root.Close]
  · simp [Pkg.Write, hreClosed]
  · simp [Pkg.GetOne, hreClosed]
  · rw [Pkg.GetN, if_neg (by omega : ¬ (n ≤ 0)), hreClosed]
  · simp [Pkg.GetAllView, hreClosed]
  · rw [Pkg.Close, if_pos herrc]

/-- Witness for C3: closing a fresh capacity-1 buffer in each generation,
then writing 5 and reading once. -/
theorem C3_witness :
    (Root.Close (⟨[0], 1, 0, 0, false, none, false, false, false⟩ : RB Nat)).1 = none ∧
    (Root.Close (⟨[0], 1, 0, 0, false, none, false, false, false⟩ : RB Nat)).2
      = { (⟨[0], 1, 0, 0, false, none, false, false, false⟩ : RB Nat) with
            r := 0, w := 0, isFull := false, err := none, paused := true } ∧
    Root.Write 1 (Root.Close (⟨[0], 1, 0, 0, false, none, false, false, false⟩ : RB Nat)).2 5
      = (.ret none, (Root.Close (⟨[0], 1, 0, 0, false, none, false, false, false⟩ : RB Nat)).2) ∧
    Root.GetOne (Root.Close (⟨[0], 1, 0, 0, false, none, false, false, false⟩ : RB Nat)).2
      = (.ret (0, none), (Root.Close (⟨[0], 1, 0, 0, false, none, false, false, false⟩ : RB Nat)).2) ∧
    Root.Close (Root.Close (⟨[0], 1, 0, 0, false, none, false, false, false⟩ : RB Nat)).2
      = (none, (Root.Close (⟨[0], 1, 0, 0, false, none, false, false, false⟩ : RB Nat)).2) ∧
    (Pkg.Close (⟨[0], 1, 0, 0, false, none, false, false, false⟩ : RB Nat)).1 = none ∧
    (Pkg.Close (⟨[0], 1, 0, 0, false, none, false, false, false⟩ : RB Nat)).2.err
      = some RBErr.eofErr ∧
    (Pkg.Close (⟨[0], 1, 0, 0, false, none, false, false, false⟩ : RB Nat)).2.r = 0 ∧
    (Pkg.Close (⟨[0], 1, 0, 0, false, none, false, false, false⟩ : RB Nat)).2.w = 0 ∧
    (Pkg.Close (⟨[0], 1, 0, 0, false, none, false, false, false⟩ : RB Nat)).2.isFull = false ∧
    Pkg.Write (Pkg.Close (⟨[0], 1, 0, 0, false, none, false, false, false⟩ : RB Nat)).2 5
      = (.ret (some RBErr.eofErr),
         (Pkg.Close (⟨[0], 1, 0, 0, false, none, false, false, false⟩ : RB Nat)).2) ∧
    Pkg.GetOne (Pkg.Close (⟨[0], 1, 0, 0, false, none, false, false, false⟩ : RB Nat)).2
      = (.ret (0, some RBErr.eofErr),
         (Pkg.Close (⟨[0], 1, 0, 0, false, none, false, false, false⟩ : RB Nat)).2) ∧
    Pkg.GetN (Pkg.Close (⟨[0], 1, 0, 0, false, none, false, false, false⟩ : RB Nat)).2 1
      = (.ret ([], some RBErr.eofErr),
         (Pkg.Close (⟨[0], 1, 0, 0, false, none, false, false, false⟩ : RB Nat)).2) ∧
    Pkg.GetAllView (Pkg.Close (⟨[0], 1, 0, 0, false, none, false, false, false⟩ : RB Nat)).2
      = (.ret ([], [], some RBErr.eofErr),
         (Pkg.Close (⟨[0], 1, 0, 0, false, none, false, false, false⟩ : RB Nat)).2) ∧
    Pkg.Close (Pkg.Close (⟨[0], 1, 0, 0, false, none, false, false, false⟩ : RB Nat)).2
      = (none, (Pkg.Close (⟨[0], 1, 0, 0, false, none, false, false, false⟩ : RB Nat)).2) :=
  C3_close_pauses Nat 1 (⟨[0], 1, 0, 0, false, none, false, false, false⟩ : RB Nat)
    (⟨[0], 1, 0, 0, false, none, false, false, false⟩ : RB Nat) 5 1 rfl (by decide)

/-! ### Claim C5 -/

/-- C5 (code bug): `Flush` ends by calling `updateBufferState`, which
recomputes `isFull` as `w == r`; after `Flush` resets both positions to `0`
this marks an empty buffer as full.  Failing input (the sequence of
`TestFlushAndReset`): a fresh capacity-5 buffer, `Write 1; Write 2; Write 3;
Flush`.  Before the flush the buffer stores 3 items; after it, the code
reports `isFull = true`, `Length = 5` and `IsEmpty = false`, although the
buffer holds 0 unread elements — the test asserts `IsEmpty` and
`Length == 0`, and the spec invariant says `full` holds iff exactly
`capacity` elements are stored. -/
theorem C5_flush_marks_empty_buffer_full :
    Root.Length ((Root.Write 1 ((Root.Write 1 ((Root.Write 1 (⟨List.replicate 5 0, 5, 0, 0, false, none, false, false, false⟩ : RB Nat) 1).2) 2).2) 3).2) = 3 ∧
    (Root.Flush ((Root.Write 1 ((Root.Write 1 ((Root.Write 1 (⟨List.replicate 5 0, 5, 0, 0, false, none, false, false, false⟩ : RB Nat) 1).2) 2).2) 3).2)).isFull = true ∧
    Root.Length (Root.Flush ((Root.Write 1 ((Root.Write 1 ((Root.Write 1 (⟨List.replicate 5 0, 5, 0, 0, false, none, false, false, false⟩ : RB Nat) 1).2) 2).2) 3).2)) = 5 ∧
    Root.IsEmpty (Root.Flush ((Root.Write 1 ((Root.Write 1 ((Root.Write 1 (⟨List.replicate 5 0, 5, 0, 0, false, none, false, false, false⟩ : RB Nat) 1).2) 2).2) 3).2)) = false := by
  decide

/-! ### Claim C6 -/

/-- C6 counterexample: the root-package `WriteMany` is not all-or-nothing.
On a capacity-2 buffer already holding one item, `WriteMany [4, 5]` writes
the first item (filling the buffer, `buf` becomes `[9, 4]`), then fails on
the second and returns count 1 with `ErrIsFull` — an error with a partially
written prefix, where the claim requires that no items be written. -/
theorem C6_counterexample :
    Root.WriteMany 1 (⟨[9, 9], 2, 0, 1, false, none, false, false, false⟩ : RB Nat) [4, 5]
      = (.ret (1, some RBErr.isFull), ⟨[9, 4], 2, 0, 0, true, none, false, false, false⟩) := by
  decide

/-- C6 (amended): for every root-package buffer of positive capacity and
every input slice longer than the capacity, `WriteMany` returns count 0 and
the oversize error (`ErrTooMuchDataToWrite`) and writes no items; in other
error cases the items written before the failing single-item `Write` remain
written and their count is returned with the error (as the counterexample
shows), so the all-or-nothing clause holds only for the oversize path. -/
theorem C6_writemany_oversize (T : Type) [Inhabited T] (fuel : Nat) (s : RB T)
    (items : List T) (hlen : items.length > s.size) (hsz : 0 < s.size) :
    Root.WriteMany fuel s items = (.ret (0, some RBErr.tooMuchDataToWrite), s) := by
  unfold Root.WriteMany
  rw [if_neg (by omega : ¬ items.length = 0), if_pos hlen]

/-- Witness for C6 at capacity 2 with three items. -/
theorem C6_witness :
    Root.WriteMany 1 (⟨[0, 0], 2, 0, 0, false, none, false, false, false⟩ : RB Nat) [1, 2, 3]
      = (.ret (0, some RBErr.tooMuchDataToWrite), ⟨[0, 0], 2, 0, 0, false, none, false, false, false⟩) :=
  C6_writemany_oversize Nat 1 _ [1, 2, 3] (by decide) (by decide)

/-! ### Claim C8 -/

/-- C8: on a paused root-package buffer, `Write` returns success without
storing and `GetOne` returns success with the zero value without consuming;
the state (positions, `full` flag, contents) is returned unchanged. -/
theorem C8_paused_write_read_trivial_success (T : Type) [Inhabited T] (fuel : Nat)
    (s : RB T) (x : T) (hp : s.paused = true) :
    Root.Write fuel s x = (.ret none, s) ∧
    Root.GetOne s = (.ret (default, none), s) := by
  constructor
  · simp [Root.Write, hp]
  · simp [Root.GetOne, hp]

/-- Witness for C8: a paused capacity-2 buffer holding one item (so both a
write and a read would otherwise be possible). -/
theorem C8_witness :
    Root.Write 1 (⟨[7, 0], 2, 0, 1, false, none, false, false, true⟩ : RB Nat) 9
      = (.ret none, ⟨[7, 0], 2, 0, 1, false, none, false, false, true⟩) ∧
    Root.GetOne (⟨[7, 0], 2, 0, 1, false, none, false, false, true⟩ : RB Nat)
      = (.ret (0, none), ⟨[7, 0], 2, 0, 1, false, none, false, false, true⟩) :=
  C8_paused_write_read_trivial_success Nat 1 _ 9 rfl

/-! ### Claim C10 -/

/-- C10: on a paused root-package buffer, `TryWrite` returns `false` and
`TryRead` returns the zero value with `false`, both leaving the state
unchanged — even when free space or stored elements are available — unlike
`Write`/`GetOne`, which report trivial success while paused (claim C8). -/
theorem C10_try_ops_fail_while_paused (T : Type) [Inhabited T] (s : RB T) (x : T)
    (hp : s.paused = true) :
    Root.TryWrite s x = (false, s) ∧
    Root.TryRead s = ((default, false), s) := by
  constructor
  · simp [Root.TryWrite, hp]
  · simp [Root.TryRead, hp]

/-- Witness for C10: the same paused capacity-2 buffer holding one item —
one free slot and one stored element are available, yet both try-operations
fail. -/
theorem C10_witness :
    Root.TryWrite (⟨[7, 0], 2, 0, 1, false, none, false, false, true⟩ : RB Nat) 9
      = (false, ⟨[7, 0], 2, 0, 1, false, none, false, false, true⟩) ∧
    Root.TryRead (⟨[7, 0], 2, 0, 1, false, none, false, false, true⟩ : RB Nat)
      = ((0, false), ⟨[7, 0], 2, 0, 1, false, none, false, false, true⟩) :=
  C10_try_ops_fail_while_paused Nat _ 9 rfl

end RingBufferSpec
